import Mathlib

/-!
Verification development for the VQ-diffusion discrete-state scheduler
(`src/diffusers/schedulers/scheduling_vq_diffusion.py`) and the Wuerstchen
prior sampling loop (`src/diffusers/pipelines/wuerstchen/pipeline_wuerstchen_prior.py`).

Numerical conventions of the embedding:

* The schedule builder is embedded over exact rationals `ℚ`.  The Python code
  performs the same arithmetic in IEEE floats and then stores the natural
  logarithms of the resulting coefficients (`log_at = torch.log(at)`, etc.).
  We keep the linear-space coefficients in the `VQDiffusionScheduler`
  structure and expose the stored log-space tensors through `Real.log`
  accessors, so `exp (log_at t) = at t` holds exactly wherever `at t > 0`.
* numpy arrays are embedded as `List ℚ`; elementwise array operations become
  `List.map` / `List.zipWith` (numpy broadcasts arrays of equal length, which
  `zipWith` reproduces).
* Division by zero in `ℚ` yields `0` where numpy would produce `inf`/`nan`
  with a runtime warning; in both settings no exception is raised.
* 3-d tensors `(batch, classes, pixels)` are embedded as
  `List (List (List ℝ))`; the log-space tensor ops of the scheduler
  (`logaddexp`, `logsumexp`, gumbel noise) use `Real.log` / `Real.exp`.
-/

/-- Element of `List.zipWith` at a valid index. -/
theorem getD_zipWith_of_lt {α β γ : Type} (f : α → β → γ) (l₁ : List α) (l₂ : List β)
    (i : ℕ) (d₁ : α) (d₂ : β) (d₃ : γ) (h₁ : i < l₁.length) (h₂ : i < l₂.length) :
    (List.zipWith f l₁ l₂).getD i d₃ = f (l₁.getD i d₁) (l₂.getD i d₂) := by
  induction l₁ generalizing l₂ i with
  | nil => simp at h₁
  | cons a l ih =>
    cases l₂ with
    | nil => simp at h₂
    | cons b l₂ =>
      cases i with
      | zero => simp
      | succ n =>
        simp only [List.zipWith_cons_cons, List.getD_cons_succ]
        exact ih l₂ n (by simpa using h₁) (by simpa using h₂)

/-- Element of `List.map` at a valid index. -/
theorem getD_map_of_lt {α β : Type} (f : α → β) (l : List α) (i : ℕ) (d₁ : α) (d₂ : β)
    (h : i < l.length) : (l.map f).getD i d₂ = f (l.getD i d₁) := by
  induction l generalizing i with
  | nil => simp at h
  | cons a l ih =>
    cases i with
    | zero => simp
    | succ n =>
      simp only [List.map_cons, List.getD_cons_succ]
      exact ih n (by simpa using h)

/-- Element of an append at an index inside the left list. -/
theorem getD_append_of_lt {α : Type} (l₁ l₂ : List α) (i : ℕ) (d : α) (h : i < l₁.length) :
    (l₁ ++ l₂).getD i d = l₁.getD i d := by
  induction l₁ generalizing i with
  | nil => simp at h
  | cons a l ih =>
    cases i with
    | zero => simp
    | succ n =>
      simp only [List.cons_append, List.getD_cons_succ]
      exact ih n (by simpa using h)

/-- Element of `List.range` at a valid index. -/
theorem getD_range_of_lt (n i : ℕ) (d : ℕ) (h : i < n) : (List.range n).getD i d = i := by
  rw [List.getD_eq_getElem _ _ (by simpa using h)]
  simp

/-- Embedding of `alpha_schedules` (scheduling_vq_diffusion.py, lines 58-71).
The cumulative sequence `att` is linearly interpolated from `a_cumulative_start`
to `a_cumulative_end`, a leading `1` is prepended (the `t = -1` value), the
per-step sequence is the ratio of consecutive cumulative values
(`at = att[1:] / att[:-1]`), and the returned cumulative sequence is
`att[1:]` with a trailing `1` appended.  Returns `(at, att)`. -/
def alpha_schedules (num_diffusion_timesteps : ℕ)
    (a_cumulative_start a_cumulative_end : ℚ) : List ℚ × List ℚ :=
  let att0 : List ℚ := (List.range num_diffusion_timesteps).map (fun (i : ℕ) =>
    (i : ℚ) / ((num_diffusion_timesteps : ℚ) - 1) * (a_cumulative_end - a_cumulative_start)
      + a_cumulative_start)
  let att : List ℚ := 1 :: att0
  -- at = att[1:] / att[:-1]  (zipWith truncates to the shorter list, i.e. att[:-1])
  let at_seq : List ℚ := List.zipWith (fun x y => x / y) att.tail att
  (at_seq, att0 ++ [1])

/-- Embedding of `gamma_schedules` (scheduling_vq_diffusion.py, lines 74-89).
Mirrors `alpha_schedules` with a prepended `0`, working through the complement
`one_minus_ctt = 1 - ctt` for the per-step ratio, and appending a trailing `0`
to the returned cumulative sequence.  Returns `(ct, ctt)`. -/
def gamma_schedules (num_diffusion_timesteps : ℕ)
    (c_cumulative_start c_cumulative_end : ℚ) : List ℚ × List ℚ :=
  let ctt0 : List ℚ := (List.range num_diffusion_timesteps).map (fun (i : ℕ) =>
    (i : ℚ) / ((num_diffusion_timesteps : ℚ) - 1) * (c_cumulative_end - c_cumulative_start)
      + c_cumulative_start)
  let ctt : List ℚ := 0 :: ctt0
  let one_minus_ctt : List ℚ := ctt.map (fun x => 1 - x)
  let one_minus_ct : List ℚ := List.zipWith (fun x y => x / y) one_minus_ctt.tail one_minus_ctt
  let ct_seq : List ℚ := one_minus_ct.map (fun x => 1 - x)
  (ct_seq, ctt0 ++ [0])

/-- State of a constructed `VQDiffusionScheduler`.  The Python object stores
`log_at = log at`, ..., `log_cumprod_ct = log ctt`; we store the linear-space
coefficient lists and recover the log-space tensors through the accessors
below. -/
structure VQDiffusionScheduler where
  num_embed : ℤ
  mask_class : ℤ
  at_seq : List ℚ
  bt : List ℚ
  ct : List ℚ
  att : List ℚ
  btt : List ℚ
  ctt : List ℚ
  timesteps : List ℕ

/-- Embedding of `VQDiffusionScheduler.__init__` (lines 127-176).  The
constructor performs no validation: it builds the alpha and gamma schedules,
derives the betas by `bt = (1 - at - ct) / num_non_mask_classes` with
`num_non_mask_classes = num_embed - 1` (likewise `btt` from `att`, `ctt`),
and stores everything.  Python defaults: `num_train_timesteps = 100`,
`a_cumulative_start = 0.99999`, `a_cumulative_end = 0.000009`,
`c_cumulative_start = 0.000009`, `c_cumulative_end = 0.99999`. -/
def VQDiffusionScheduler.init (num_embed : ℤ) (num_train_timesteps : ℕ)
    (a_cumulative_start a_cumulative_end c_cumulative_start c_cumulative_end : ℚ) :
    VQDiffusionScheduler :=
  let ats := alpha_schedules num_train_timesteps a_cumulative_start a_cumulative_end
  let cts := gamma_schedules num_train_timesteps c_cumulative_start c_cumulative_end
  let num_non_mask_classes : ℚ := (num_embed : ℚ) - 1
  { num_embed := num_embed
    -- By convention, the index for the mask class is the last class index
    mask_class := num_embed - 1
    at_seq := ats.1
    bt := List.zipWith (fun a c => (1 - a - c) / num_non_mask_classes) ats.1 cts.1
    ct := cts.1
    att := ats.2
    btt := List.zipWith (fun a c => (1 - a - c) / num_non_mask_classes) ats.2 cts.2
    ctt := cts.2
    timesteps := (List.range num_train_timesteps).reverse }

/-- Exception channel of `VQDiffusionScheduler.__init__`: the constructor body
contains no `raise` statement and no validation of `num_embed`, so every call
returns a constructed scheduler (numpy signals the `num_embed = 1` division by
zero only with a runtime warning, producing non-finite float entries). -/
def VQDiffusionScheduler.initE (num_embed : ℤ) (num_train_timesteps : ℕ)
    (a_cumulative_start a_cumulative_end c_cumulative_start c_cumulative_end : ℚ) :
    Except String VQDiffusionScheduler :=
  Except.ok (VQDiffusionScheduler.init num_embed num_train_timesteps
    a_cumulative_start a_cumulative_end c_cumulative_start c_cumulative_end)

/-- Stored tensor `self.log_at` at index `t`. -/
noncomputable def VQDiffusionScheduler.log_at (s : VQDiffusionScheduler) (t : ℕ) : ℝ :=
  Real.log ((s.at_seq.getD t 0 : ℚ) : ℝ)

/-- Stored tensor `self.log_bt` at index `t`. -/
noncomputable def VQDiffusionScheduler.log_bt (s : VQDiffusionScheduler) (t : ℕ) : ℝ :=
  Real.log ((s.bt.getD t 0 : ℚ) : ℝ)

/-- Stored tensor `self.log_ct` at index `t`. -/
noncomputable def VQDiffusionScheduler.log_ct (s : VQDiffusionScheduler) (t : ℕ) : ℝ :=
  Real.log ((s.ct.getD t 0 : ℚ) : ℝ)

/-- Stored tensor `self.log_cumprod_at` at index `t`. -/
noncomputable def VQDiffusionScheduler.log_cumprod_at (s : VQDiffusionScheduler) (t : ℕ) : ℝ :=
  Real.log ((s.att.getD t 0 : ℚ) : ℝ)

/-- Stored tensor `self.log_cumprod_bt` at index `t`. -/
noncomputable def VQDiffusionScheduler.log_cumprod_bt (s : VQDiffusionScheduler) (t : ℕ) : ℝ :=
  Real.log ((s.btt.getD t 0 : ℚ) : ℝ)

/-- Stored tensor `self.log_cumprod_ct` at index `t`. -/
noncomputable def VQDiffusionScheduler.log_cumprod_ct (s : VQDiffusionScheduler) (t : ℕ) : ℝ :=
  Real.log ((s.ctt.getD t 0 : ℚ) : ℝ)

/-- Concrete scheduler instance (num_embed = 4, two training timesteps, simple
rational boundary values) used as the evaluation point of several witnesses.
Its coefficient lists evaluate to
`at = [3/4, 1/3]`, `ct = [1/8, 4/7]`, `bt = [1/24, 2/63]`,
`att = [3/4, 1/4, 1]`, `ctt = [1/8, 5/8, 0]`, `btt = [1/24, 1/24, 0]`. -/
def exampleScheduler : VQDiffusionScheduler :=
  VQDiffusionScheduler.init 4 2 (3/4) (1/4) (1/8) (5/8)

/-- Length of the per-step alpha schedule. -/
theorem alpha_schedules_fst_length (T : ℕ) (a_s a_e : ℚ) :
    (alpha_schedules T a_s a_e).1.length = T := by
  show (List.zipWith _ _ _).length = T
  rw [List.length_zipWith, List.tail_cons, List.length_cons, List.length_map, List.length_range]
  omega

/-- Length of the cumulative alpha schedule. -/
theorem alpha_schedules_snd_length (T : ℕ) (a_s a_e : ℚ) :
    (alpha_schedules T a_s a_e).2.length = T + 1 := by
  show (_ ++ [1]).length = T + 1
  rw [List.length_append, List.length_map, List.length_range]
  rfl

/-- Length of the per-step gamma schedule. -/
theorem gamma_schedules_fst_length (T : ℕ) (c_s c_e : ℚ) :
    (gamma_schedules T c_s c_e).1.length = T := by
  show (List.map _ (List.zipWith _ (List.map _ _).tail (List.map _ _))).length = T
  simp only [List.length_map, List.length_zipWith, List.map_cons, List.tail_cons,
    List.length_cons, List.length_range]
  omega

/-- Length of the cumulative gamma schedule. -/
theorem gamma_schedules_snd_length (T : ℕ) (c_s c_e : ℚ) :
    (gamma_schedules T c_s c_e).2.length = T + 1 := by
  show (_ ++ [0]).length = T + 1
  rw [List.length_append, List.length_map, List.length_range]
  rfl

/-- The per-step beta coefficient stored by the constructor satisfies
`bt[t] = (1 - at[t] - ct[t]) / (num_embed - 1)`. -/
theorem init_bt_getD (ne : ℤ) (T : ℕ) (a_s a_e c_s c_e : ℚ) (t : ℕ) (ht : t < T) :
    (VQDiffusionScheduler.init ne T a_s a_e c_s c_e).bt.getD t 0 =
      (1 - (VQDiffusionScheduler.init ne T a_s a_e c_s c_e).at_seq.getD t 0
         - (VQDiffusionScheduler.init ne T a_s a_e c_s c_e).ct.getD t 0) / ((ne : ℚ) - 1) := by
  have h₁ : t < (alpha_schedules T a_s a_e).1.length := by
    rw [alpha_schedules_fst_length]; exact ht
  have h₂ : t < (gamma_schedules T c_s c_e).1.length := by
    rw [gamma_schedules_fst_length]; exact ht
  simp only [VQDiffusionScheduler.init]
  rw [getD_zipWith_of_lt _ _ _ t 0 0 0 h₁ h₂]

/-- The cumulative beta coefficient stored by the constructor satisfies
`btt[t] = (1 - att[t] - ctt[t]) / (num_embed - 1)`. -/
theorem init_btt_getD (ne : ℤ) (T : ℕ) (a_s a_e c_s c_e : ℚ) (t : ℕ) (ht : t < T + 1) :
    (VQDiffusionScheduler.init ne T a_s a_e c_s c_e).btt.getD t 0 =
      (1 - (VQDiffusionScheduler.init ne T a_s a_e c_s c_e).att.getD t 0
         - (VQDiffusionScheduler.init ne T a_s a_e c_s c_e).ctt.getD t 0) / ((ne : ℚ) - 1) := by
  have h₁ : t < (alpha_schedules T a_s a_e).2.length := by
    rw [alpha_schedules_snd_length]; exact ht
  have h₂ : t < (gamma_schedules T c_s c_e).2.length := by
    rw [gamma_schedules_snd_length]; exact ht
  simp only [VQDiffusionScheduler.init]
  rw [getD_zipWith_of_lt _ _ _ t 0 0 0 h₁ h₂]

/-- C1 counterexample: in the schedule built with `num_embed = 4`
(`exampleScheduler`), the stored per-step beta at `t = 0` is `1/24`, which is
not `(1 - alpha_step[0] - gamma_step[0]) / (num_embed - 2) = 1/16`; moreover
the claimed mixture `alpha + (num_embed - 2) * beta + gamma` misses `1` by
`1/24`, far beyond the `1e-5` tolerance. -/
theorem beta_divisor_claim_false :
    exampleScheduler.bt.getD 0 0 ≠
      (1 - exampleScheduler.at_seq.getD 0 0 - exampleScheduler.ct.getD 0 0) /
        ((exampleScheduler.num_embed : ℚ) - 2) ∧
    1 - (exampleScheduler.at_seq.getD 0 0
        + ((exampleScheduler.num_embed : ℚ) - 2) * exampleScheduler.bt.getD 0 0
        + exampleScheduler.ct.getD 0 0) > 1e-5 := by
  norm_num [exampleScheduler, VQDiffusionScheduler.init, alpha_schedules, gamma_schedules,
    List.range_succ]

/-- C1 (amended): for every timestep `t` of a built schedule, the per-step
beta is derived as `beta_step[t] = (1 - alpha_step[t] - gamma_step[t]) /
(num_embed - 1)`, and the cumulative analogue likewise divides by
`num_embed - 1` (the code's `num_non_mask_classes`). -/
theorem beta_step_divisor (ne : ℤ) (T : ℕ) (a_s a_e c_s c_e : ℚ) (t : ℕ) (ht : t < T) :
    (VQDiffusionScheduler.init ne T a_s a_e c_s c_e).bt.getD t 0 =
      (1 - (VQDiffusionScheduler.init ne T a_s a_e c_s c_e).at_seq.getD t 0
         - (VQDiffusionScheduler.init ne T a_s a_e c_s c_e).ct.getD t 0) / ((ne : ℚ) - 1) ∧
    (VQDiffusionScheduler.init ne T a_s a_e c_s c_e).btt.getD t 0 =
      (1 - (VQDiffusionScheduler.init ne T a_s a_e c_s c_e).att.getD t 0
         - (VQDiffusionScheduler.init ne T a_s a_e c_s c_e).ctt.getD t 0) / ((ne : ℚ) - 1) :=
  ⟨init_bt_getD ne T a_s a_e c_s c_e t ht,
   init_btt_getD ne T a_s a_e c_s c_e t (Nat.lt_succ_of_lt ht)⟩

/-- Witness for `beta_step_divisor` at `num_embed = 4`, `T = 2`, `t = 0`. -/
theorem beta_step_divisor_witness :
    (VQDiffusionScheduler.init 4 2 (3/4) (1/4) (1/8) (5/8)).bt.getD 0 0 =
      (1 - (VQDiffusionScheduler.init 4 2 (3/4) (1/4) (1/8) (5/8)).at_seq.getD 0 0
         - (VQDiffusionScheduler.init 4 2 (3/4) (1/4) (1/8) (5/8)).ct.getD 0 0) /
        (((4 : ℤ) : ℚ) - 1) :=
  (beta_step_divisor 4 2 (3/4) (1/4) (1/8) (5/8) 0 (by norm_num)).1

/-- C2: for every timestep `t` of a built schedule whose linear-space
coefficients at `t` are positive, `exp(alpha) + exp(beta) *
num_non_mask_classes + exp(gamma) = 1` with `num_non_mask_classes =
num_embed - 1`, both for the per-step and the cumulative stored log
coefficients (the coefficients form a valid categorical mixture at `t`). -/
theorem schedule_mixture_invariant (ne : ℤ) (T : ℕ) (a_s a_e c_s c_e : ℚ) (t : ℕ)
    (hne : 2 ≤ ne) (ht : t < T)
    (ha : 0 < (VQDiffusionScheduler.init ne T a_s a_e c_s c_e).at_seq.getD t 0)
    (hb : 0 < (VQDiffusionScheduler.init ne T a_s a_e c_s c_e).bt.getD t 0)
    (hc : 0 < (VQDiffusionScheduler.init ne T a_s a_e c_s c_e).ct.getD t 0)
    (ha' : 0 < (VQDiffusionScheduler.init ne T a_s a_e c_s c_e).att.getD t 0)
    (hb' : 0 < (VQDiffusionScheduler.init ne T a_s a_e c_s c_e).btt.getD t 0)
    (hc' : 0 < (VQDiffusionScheduler.init ne T a_s a_e c_s c_e).ctt.getD t 0) :
    Real.exp ((VQDiffusionScheduler.init ne T a_s a_e c_s c_e).log_at t)
      + Real.exp ((VQDiffusionScheduler.init ne T a_s a_e c_s c_e).log_bt t) * ((ne : ℝ) - 1)
      + Real.exp ((VQDiffusionScheduler.init ne T a_s a_e c_s c_e).log_ct t) = 1 ∧
    Real.exp ((VQDiffusionScheduler.init ne T a_s a_e c_s c_e).log_cumprod_at t)
      + Real.exp ((VQDiffusionScheduler.init ne T a_s a_e c_s c_e).log_cumprod_bt t)
          * ((ne : ℝ) - 1)
      + Real.exp ((VQDiffusionScheduler.init ne T a_s a_e c_s c_e).log_cumprod_ct t) = 1 := by
  have hne' : ((ne : ℝ) - 1) ≠ 0 := by
    have h2 : (2 : ℝ) ≤ (ne : ℝ) := by exact_mod_cast hne
    linarith
  constructor
  · rw [VQDiffusionScheduler.log_at, VQDiffusionScheduler.log_bt, VQDiffusionScheduler.log_ct,
      Real.exp_log (by exact_mod_cast ha), Real.exp_log (by exact_mod_cast hb),
      Real.exp_log (by exact_mod_cast hc), init_bt_getD ne T a_s a_e c_s c_e t ht]
    push_cast
    field_simp
    ring
  · rw [VQDiffusionScheduler.log_cumprod_at, VQDiffusionScheduler.log_cumprod_bt,
      VQDiffusionScheduler.log_cumprod_ct, Real.exp_log (by exact_mod_cast ha'),
      Real.exp_log (by exact_mod_cast hb'), Real.exp_log (by exact_mod_cast hc'),
      init_btt_getD ne T a_s a_e c_s c_e t (Nat.lt_succ_of_lt ht)]
    push_cast
    field_simp
    ring

/-- Witness for `schedule_mixture_invariant` at `num_embed = 4`, `T = 2`,
`t = 0` (coefficients `3/4, 1/24, 1/8` per-step and `3/4, 1/24, 1/8`
cumulative, all positive). -/
theorem schedule_mixture_invariant_witness :
    Real.exp ((VQDiffusionScheduler.init 4 2 (3/4) (1/4) (1/8) (5/8)).log_at 0)
      + Real.exp ((VQDiffusionScheduler.init 4 2 (3/4) (1/4) (1/8) (5/8)).log_bt 0)
          * (((4 : ℤ) : ℝ) - 1)
      + Real.exp ((VQDiffusionScheduler.init 4 2 (3/4) (1/4) (1/8) (5/8)).log_ct 0) = 1 ∧
    Real.exp ((VQDiffusionScheduler.init 4 2 (3/4) (1/4) (1/8) (5/8)).log_cumprod_at 0)
      + Real.exp ((VQDiffusionScheduler.init 4 2 (3/4) (1/4) (1/8) (5/8)).log_cumprod_bt 0)
          * (((4 : ℤ) : ℝ) - 1)
      + Real.exp ((VQDiffusionScheduler.init 4 2 (3/4) (1/4) (1/8) (5/8)).log_cumprod_ct 0)
        = 1 :=
  schedule_mixture_invariant 4 2 (3/4) (1/4) (1/8) (5/8) 0 (by norm_num) (by norm_num)
    (by norm_num [VQDiffusionScheduler.init, alpha_schedules, gamma_schedules, List.range_succ])
    (by norm_num [VQDiffusionScheduler.init, alpha_schedules, gamma_schedules, List.range_succ])
    (by norm_num [VQDiffusionScheduler.init, alpha_schedules, gamma_schedules, List.range_succ])
    (by norm_num [VQDiffusionScheduler.init, alpha_schedules, gamma_schedules, List.range_succ])
    (by norm_num [VQDiffusionScheduler.init, alpha_schedules, gamma_schedules, List.range_succ])
    (by norm_num [VQDiffusionScheduler.init, alpha_schedules, gamma_schedules, List.range_succ])

/-- C3 (code bug): constructing a scheduler with `num_embed = 1 < 2` does not
raise: the constructor has no validation, completes the division of the beta
derivation by `num_embed - 1 = 0` (numpy only warns and stores non-finite
floats), and returns a schedule rather than an error. -/
theorem init_num_embed_one_no_error :
    (VQDiffusionScheduler.initE 1 3 (3/4) (1/4) (1/8) (5/8)).isOk = true ∧
    ((VQDiffusionScheduler.init 1 3 (3/4) (1/4) (1/8) (5/8)).num_embed : ℚ) - 1 = 0 := by
  refine ⟨rfl, ?_⟩
  norm_num [VQDiffusionScheduler.init]

/-- C9: the cumulative alpha and gamma sequences of a built schedule, at their
final timestep index `T - 1`, equal the configured end boundary values
`a_cumulative_end` and `c_cumulative_end` exactly (the embedding computes in
exact rational arithmetic, so the float tolerance is met trivially). -/
theorem cumulative_end_boundary (ne : ℤ) (T : ℕ) (a_s a_e c_s c_e : ℚ) (hT : 2 ≤ T) :
    (VQDiffusionScheduler.init ne T a_s a_e c_s c_e).att.getD (T - 1) 0 = a_e ∧
    (VQDiffusionScheduler.init ne T a_s a_e c_s c_e).ctt.getD (T - 1) 0 = c_e := by
  have hlt : T - 1 < T := by omega
  have hQ : ((T : ℚ) - 1) ≠ 0 := by
    have h2 : (2 : ℚ) ≤ (T : ℚ) := by exact_mod_cast hT
    linarith
  have hcast : (((T - 1 : ℕ)) : ℚ) = (T : ℚ) - 1 := by
    push_cast [Nat.cast_sub (by omega : 1 ≤ T)]
    ring
  constructor
  · show ((List.range T).map _ ++ [(1 : ℚ)]).getD (T - 1) 0 = a_e
    rw [getD_append_of_lt _ _ _ _ (by rw [List.length_map, List.length_range]; exact hlt),
      getD_map_of_lt _ _ _ 0 _ (by rw [List.length_range]; exact hlt),
      getD_range_of_lt T (T - 1) 0 hlt, hcast, div_self hQ]
    ring
  · show ((List.range T).map _ ++ [(0 : ℚ)]).getD (T - 1) 0 = c_e
    rw [getD_append_of_lt _ _ _ _ (by rw [List.length_map, List.length_range]; exact hlt),
      getD_map_of_lt _ _ _ 0 _ (by rw [List.length_range]; exact hlt),
      getD_range_of_lt T (T - 1) 0 hlt, hcast, div_self hQ]
    ring

/-- Witness for `cumulative_end_boundary` at the `exampleScheduler`
configuration (`T = 2`): `att[1] = 1/4 = a_cumulative_end` and
`ctt[1] = 5/8 = c_cumulative_end`. -/
theorem cumulative_end_boundary_witness :
    (VQDiffusionScheduler.init 4 2 (3/4) (1/4) (1/8) (5/8)).att.getD (2 - 1) 0 = 1/4 ∧
    (VQDiffusionScheduler.init 4 2 (3/4) (1/4) (1/8) (5/8)).ctt.getD (2 - 1) 0 = 5/8 :=
  cumulative_end_boundary 4 2 (3/4) (1/4) (1/8) (5/8) (by norm_num)

/-- 3-d tensor `(batch size, num classes, num latent pixels)` over `ℝ`. -/
abbrev Tensor3 := List (List (List ℝ))

/-- torch logaddexp: `log (exp x + exp y)`. -/
noncomputable def logaddexp (x y : ℝ) : ℝ := Real.log (Real.exp x + Real.exp y)

/-- Embedding of `index_to_log_onehot` (lines 27-45): one-hot encode the class
indices, permute to `(batch, classes, pixels)`, clamp to a minimum of `1e-30`
and take logs.  Entry `(b, c, p)` is `log 1 = 0` when `x[b][p] = c` and
`log 1e-30` otherwise. -/
noncomputable def index_to_log_onehot (x : List (List ℤ)) (num_classes : ℤ) : Tensor3 :=
  x.map (fun row => (List.range num_classes.toNat).map (fun (c : ℕ) =>
    row.map (fun cls => Real.log (if cls = (c : ℤ) then 1 else 1e-30))))

/-- Embedding of `gumbel_noised` (lines 48-55).  The generator argument is
modeled as the stream of per-coordinate uniform draws that `torch.rand`
produces from the supplied generator state; no other randomness source
appears in the computation. -/
noncomputable def gumbel_noised (logits : Tensor3) (uniform : ℕ → ℕ → ℕ → ℝ) : Tensor3 :=
  logits.mapIdx (fun b m => m.mapIdx (fun c row => row.mapIdx (fun p v =>
    (-Real.log (-Real.log (uniform b c p + 1e-30) + 1e-30)) + v)))

/-- Embedding of `VQDiffusionScheduler.log_Q_t_transitioning_to_known_class`
(lines 367-470).  Selects the per-step or cumulative log coefficients,
saves the masked-class channel of the log one-hot (`[:, -1, :]`), drops that
channel (`[:, :-1, :]`), forms `logaddexp(log_onehot + a, b)`, overwrites the
whole column of every masked pixel with `c`, and in the non-cumulative case
re-appends the saved masked-class channel as the final row. -/
noncomputable def VQDiffusionScheduler.log_Q_t_transitioning_to_known_class
    (s : VQDiffusionScheduler) (t : ℕ) (x_t : List (List ℤ)) (log_onehot_x_t : Tensor3)
    (cumulative : Bool) : Tensor3 :=
  let a : ℝ := if cumulative then s.log_cumprod_at t else s.log_at t
  let b : ℝ := if cumulative then s.log_cumprod_bt t else s.log_bt t
  let c : ℝ := if cumulative then s.log_cumprod_ct t else s.log_ct t
  let log_onehot_x_t_transitioning_from_masked : Tensor3 :=
    log_onehot_x_t.map (fun m => [m.getLastD []])
  let log_onehot_trunc : Tensor3 := log_onehot_x_t.map (fun m => m.dropLast)
  let log_Q_t : Tensor3 :=
    log_onehot_trunc.map (fun m => m.map (fun row => row.map (fun v => logaddexp (v + a) b)))
  let log_Q_t_masked : Tensor3 :=
    List.zipWith (fun xrow m => m.map (fun row =>
      List.zipWith (fun cls v => if cls = s.mask_class then c else v) xrow row)) x_t log_Q_t
  if cumulative then log_Q_t_masked
  else List.zipWith (fun m fr => m ++ fr) log_Q_t_masked
    log_onehot_x_t_transitioning_from_masked

/-- Embedding of `VQDiffusionScheduler.apply_cumulative_transitions`
(lines 472-484): `logaddexp(q + a_cum[t], b_cum[t])` on every entry, then one
extra row of `c_cum[t]` broadcast across the pixels. -/
noncomputable def VQDiffusionScheduler.apply_cumulative_transitions
    (s : VQDiffusionScheduler) (q : Tensor3) (t : ℕ) : Tensor3 :=
  let a := s.log_cumprod_at t
  let b := s.log_cumprod_bt t
  let c := s.log_cumprod_ct t
  let num_latent_pixels := ((q.headD []).headD []).length
  q.map (fun m => (m.map (fun row => row.map (fun v => logaddexp (v + a) b)))
    ++ [List.replicate num_latent_pixels c])

/-- Per-pixel sums over the class axis of a `(classes, pixels)` matrix. -/
noncomputable def colSums (m : List (List ℝ)) : List ℝ :=
  m.foldr (fun row acc => List.zipWith (fun x y => x + y) row acc)
    (List.replicate ((m.headD []).length) 0)

/-- `torch.logsumexp(·, dim=1)` on one batch element: per pixel,
`log` of the sum over the class axis of the exponentials. -/
noncomputable def logsumexpCols (m : List (List ℝ)) : List ℝ :=
  (colSums (m.map (fun row => row.map Real.exp))).map Real.log

/-- Embedding of `VQDiffusionScheduler.q_posterior` (lines 248-365):
`q = log_p_x_0 - log_Q_cum(t, x_t)`, normalize by `logsumexp` over the class
axis, apply the cumulative transitions at `t - 1`, then add back the
non-cumulative transition term and the `logsumexp` term.  `step` only invokes
this with `t ≥ 1`, so the `t - 1` truncated subtraction agrees with the
Python index arithmetic. -/
noncomputable def VQDiffusionScheduler.q_posterior (s : VQDiffusionScheduler)
    (log_p_x_0 : Tensor3) (x_t : List (List ℤ)) (t : ℕ) : Tensor3 :=
  let log_onehot_x_t := index_to_log_onehot x_t s.num_embed
  let log_q_x_t_given_x_0 :=
    s.log_Q_t_transitioning_to_known_class t x_t log_onehot_x_t true
  let log_q_t_given_x_t_min_1 :=
    s.log_Q_t_transitioning_to_known_class t x_t log_onehot_x_t false
  let q := List.zipWith (fun m₁ m₂ => List.zipWith (fun r₁ r₂ =>
    List.zipWith (fun x y => x - y) r₁ r₂) m₁ m₂) log_p_x_0 log_q_x_t_given_x_0
  let q_log_sum_exp := q.map logsumexpCols
  let q_norm := List.zipWith (fun m srow => m.map (fun row =>
    List.zipWith (fun x y => x - y) row srow)) q q_log_sum_exp
  let q_trans := s.apply_cumulative_transitions q_norm (t - 1)
  List.zipWith (fun m srow => m.map (fun row =>
    List.zipWith (fun x y => x + y) row srow))
    (List.zipWith (fun m₁ m₂ => List.zipWith (fun r₁ r₂ =>
      List.zipWith (fun x y => x + y) r₁ r₂) m₁ m₂) q_trans log_q_t_given_x_t_min_1)
    q_log_sum_exp

/-- Index of the first maximal entry of a list (`torch.argmax` tie rule). -/
noncomputable def argmaxList (l : List ℝ) : ℕ :=
  ((List.range l.length).argmax (fun i => l.getD i 0)).getD 0

/-- `torch.argmax(·, dim=1)`: per batch element and pixel, the class index
attaining the maximum. -/
noncomputable def argmaxDim1 (m3 : Tensor3) : List (List ℕ) :=
  m3.map (fun m => (List.range ((m.headD []).length)).map (fun p =>
    argmaxList (m.map (fun row => row.getD p 0))))

/-- Embedding of `VQDiffusionScheduler.step` (lines 200-246): at `t == 0` the
model's predicted origin log-probabilities are used directly as the
previous-step distribution, otherwise `q_posterior` composes them with the
transition matrices; Gumbel noise is added and the per-pixel argmax over the
class axis is the new discrete state. -/
noncomputable def VQDiffusionScheduler.step (s : VQDiffusionScheduler) (log_p_x_0 : Tensor3)
    (t : ℕ) (x_t : List (List ℤ)) (uniform : ℕ → ℕ → ℕ → ℝ) : List (List ℕ) :=
  let log_p_x_t_min_1 := if t = 0 then log_p_x_0 else s.q_posterior log_p_x_0 x_t t
  let noised := gumbel_noised log_p_x_t_min_1 uniform
  argmaxDim1 noised

/-- C4: at `t = 0` the sampler step bypasses the posterior composition
entirely: for every `log_p_x_0`, `x_t` and generator stream, `step` returns
the per-pixel argmax of the Gumbel-noised `log_p_x_0` itself — no transition
matrix is applied and `q_posterior` does not contribute. -/
theorem step_at_zero_passthrough (s : VQDiffusionScheduler) (log_p_x_0 : Tensor3)
    (x_t : List (List ℤ)) (uniform : ℕ → ℕ → ℕ → ℝ) :
    s.step log_p_x_0 0 x_t uniform = argmaxDim1 (gumbel_noised log_p_x_0 uniform) := rfl

/-- C7: the sampler step is deterministic in its explicit randomness source:
two invocations with generator states producing the same uniform draws, and
identical `log_p_x_0`, `t` and `x_t`, return identical class-index tensors
(the embedding of `step` consults no other random state). -/
theorem step_deterministic (s : VQDiffusionScheduler) (log_p_x_0 : Tensor3) (t : ℕ)
    (x_t : List (List ℤ)) (g₁ g₂ : ℕ → ℕ → ℕ → ℝ)
    (h : ∀ b c p, g₁ b c p = g₂ b c p) :
    s.step log_p_x_0 t x_t g₁ = s.step log_p_x_0 t x_t g₂ := by
  have hg : g₁ = g₂ := funext (fun b => funext (fun c => funext (fun p => h b c p)))
  rw [hg]

/-- Witness for `step_deterministic`: two extensionally equal uniform streams
(`1/2` and `2/4`) on a concrete one-pixel input. -/
theorem step_deterministic_witness :
    exampleScheduler.step [[[0]]] 0 [[3]] (fun _ _ _ => (1 : ℝ)/2)
      = exampleScheduler.step [[[0]]] 0 [[3]] (fun _ _ _ => 2/4) :=
  step_deterministic exampleScheduler [[[0]]] 0 [[3]] _ _ (fun _ _ _ => by norm_num)

/-- zipWith of two replicates of equal length. -/
theorem zipWith_replicate_same {α β γ : Type} (f : α → β → γ) (n : ℕ) (a : α) (b : β) :
    List.zipWith f (List.replicate n a) (List.replicate n b) = List.replicate n (f a b) := by
  induction n with
  | zero => rfl
  | succ m ih => simp [List.replicate_succ, ih]

/-- dropLast of a mapped range drops the top index. -/
theorem dropLast_map_range {α : Type} (g : ℕ → α) (n : ℕ) :
    ((List.range n).map g).dropLast = (List.range (n - 1)).map g := by
  cases n with
  | zero => rfl
  | succ m => rw [List.range_succ, List.map_append]; simp

/-- C5: evaluating the cumulative transition matrix at any timestep `t` on an
`x_t` in which every pixel carries the masked class returns the tensor in
which every entry — every source-class row (there are `num_embed - 1` of
them) and every pixel column — equals the cumulative gamma log-coefficient
`log_cumprod_ct[t]`. -/
theorem cumulative_transition_all_masked (s : VQDiffusionScheduler) (t B P : ℕ) :
    s.log_Q_t_transitioning_to_known_class t
      (List.replicate B (List.replicate P s.mask_class))
      (index_to_log_onehot (List.replicate B (List.replicate P s.mask_class)) s.num_embed)
      true
    = List.replicate B (List.replicate (s.num_embed.toNat - 1)
        (List.replicate P (s.log_cumprod_ct t))) := by
  simp only [VQDiffusionScheduler.log_Q_t_transitioning_to_known_class, index_to_log_onehot,
    List.map_replicate, dropLast_map_range, List.map_map, zipWith_replicate_same, if_true]
  simp only [List.replicate_inj]
  refine ⟨trivial, Or.inr ?_⟩
  rw [List.eq_replicate_iff]
  refine ⟨by simp, ?_⟩
  intro r hr
  simp only [List.mem_map, List.mem_range] at hr
  obtain ⟨c, hc, rfl⟩ := hr
  simp [Function.comp, List.map_replicate, zipWith_replicate_same]

/-- Batch-element count of `index_to_log_onehot`. -/
theorem index_to_log_onehot_length (x : List (List ℤ)) (nc : ℤ) :
    (index_to_log_onehot x nc).length = x.length := by
  simp [index_to_log_onehot]

/-- Per-batch class-channel count of `index_to_log_onehot`. -/
theorem index_to_log_onehot_getD (x : List (List ℤ)) (nc : ℤ) (i : ℕ) (hi : i < x.length) :
    (index_to_log_onehot x nc).getD i []
      = (List.range nc.toNat).map (fun (c : ℕ) =>
          (x.getD i []).map (fun cls => Real.log (if cls = (c : ℤ) then 1 else 1e-30))) := by
  unfold index_to_log_onehot
  rw [getD_map_of_lt _ _ _ [] _ hi]

/-- C6: the transition-matrix evaluation on any `x_t` returns, per batch
element, exactly `num_embed - 1` source-class rows in cumulative mode and
exactly `num_embed` rows in non-cumulative mode, where the extra final row of
the non-cumulative result is precisely the masked-class channel (last class
row) of the log one-hot of `x_t`, re-attached verbatim. -/
theorem transition_matrix_row_counts (s : VQDiffusionScheduler) (t : ℕ)
    (x_t : List (List ℤ)) (i : ℕ) (hi : i < x_t.length) (hne : 1 ≤ s.num_embed) :
    ((s.log_Q_t_transitioning_to_known_class t x_t
        (index_to_log_onehot x_t s.num_embed) true).getD i []).length
      = s.num_embed.toNat - 1 ∧
    ((s.log_Q_t_transitioning_to_known_class t x_t
        (index_to_log_onehot x_t s.num_embed) false).getD i []).length
      = s.num_embed.toNat ∧
    ((s.log_Q_t_transitioning_to_known_class t x_t
        (index_to_log_onehot x_t s.num_embed) false).getD i []).getLast?
      = some (((index_to_log_onehot x_t s.num_embed).getD i []).getLastD []) := by
  have hC : 1 ≤ s.num_embed.toNat := by omega
  have hloD : ((index_to_log_onehot x_t s.num_embed).map (fun m => m.dropLast)).getD i []
      = ((index_to_log_onehot x_t s.num_embed).getD i []).dropLast := by
    rw [getD_map_of_lt _ _ _ [] _ (by rw [index_to_log_onehot_length]; exact hi)]
  have hlodrop : (((index_to_log_onehot x_t s.num_embed).getD i []).dropLast).length
      = s.num_embed.toNat - 1 := by
    rw [List.length_dropLast, index_to_log_onehot_getD x_t s.num_embed i hi,
      List.length_map, List.length_range]
  refine ⟨?_, ?_, ?_⟩
  all_goals
    simp only [VQDiffusionScheduler.log_Q_t_transitioning_to_known_class, if_true,
      Bool.false_eq_true, if_false]
  · -- cumulative: the logaddexp map and the mask overwrite preserve the row count
    rw [getD_zipWith_of_lt _ x_t _ i [] [] [] hi
        (by simp only [List.length_map, index_to_log_onehot_length]; exact hi),
      List.length_map,
      getD_map_of_lt _ _ _ [] _
        (by simp only [List.length_map, index_to_log_onehot_length]; exact hi),
      List.length_map, hloD, hlodrop]
  · -- non-cumulative: the re-appended masked-class channel adds exactly one row
    rw [getD_zipWith_of_lt _ _ _ i [] [] []
        (by
          simp only [List.length_zipWith, List.length_map, index_to_log_onehot_length]
          omega)
        (by simp only [List.length_map, index_to_log_onehot_length]; exact hi),
      List.length_append,
      getD_zipWith_of_lt _ x_t _ i [] [] [] hi
        (by simp only [List.length_map, index_to_log_onehot_length]; exact hi),
      List.length_map,
      getD_map_of_lt _ _ _ [] _
        (by simp only [List.length_map, index_to_log_onehot_length]; exact hi),
      List.length_map, hloD, hlodrop,
      getD_map_of_lt _ _ _ [] _ (by rw [index_to_log_onehot_length]; exact hi)]
    simp only [List.length_singleton]
    omega
  · -- non-cumulative: the final row is the masked-class log one-hot channel
    rw [getD_zipWith_of_lt _ _ _ i [] [] []
        (by
          simp only [List.length_zipWith, List.length_map, index_to_log_onehot_length]
          omega)
        (by simp only [List.length_map, index_to_log_onehot_length]; exact hi),
      getD_map_of_lt _ _ _ [] _ (by rw [index_to_log_onehot_length]; exact hi),
      List.getLast?_concat]

/-- Witness for `transition_matrix_row_counts` on the `exampleScheduler`
(`num_embed = 4`) at a two-pixel, one-element batch. -/
theorem transition_matrix_row_counts_witness :
    ((exampleScheduler.log_Q_t_transitioning_to_known_class 0 [[0, 3]]
        (index_to_log_onehot [[0, 3]] exampleScheduler.num_embed) true).getD 0 []).length
      = exampleScheduler.num_embed.toNat - 1 ∧
    ((exampleScheduler.log_Q_t_transitioning_to_known_class 0 [[0, 3]]
        (index_to_log_onehot [[0, 3]] exampleScheduler.num_embed) false).getD 0 []).length
      = exampleScheduler.num_embed.toNat ∧
    ((exampleScheduler.log_Q_t_transitioning_to_known_class 0 [[0, 3]]
        (index_to_log_onehot [[0, 3]] exampleScheduler.num_embed) false).getD 0 []).getLast?
      = some (((index_to_log_onehot [[0, 3]] exampleScheduler.num_embed).getD 0 []).getLastD
          []) :=
  transition_matrix_row_counts exampleScheduler 0 [[0, 3]] 0 (by norm_num)
    (by norm_num [exampleScheduler, VQDiffusionScheduler.init])

/-- Batched embedding tensor of the Wuerstchen prior loop: one flattened row
of rationals per batch example (Python float values embedded in `ℚ`). -/
abbrev BatchTensor := List (List ℚ)

/-- torch.lerp: `input + weight * (end - input)`, elementwise. -/
def torchLerp (input end_tensor : BatchTensor) (weight : ℚ) : BatchTensor :=
  List.zipWith (fun r₁ r₂ => List.zipWith (fun s e => s + weight * (e - s)) r₁ r₂)
    input end_tensor

/-- Embedding of the prior-model input of one denoising iteration
(pipeline_wuerstchen_prior.py, line 239): with classifier-free guidance
active (`do_classifier_free_guidance = guidance_scale > 1.0`, line 206) the
latent batch is doubled by concatenation, otherwise passed as is. -/
def wuerstchenPriorModelInput (guidance_scale : ℚ) (latents : BatchTensor) : BatchTensor :=
  if 1 < guidance_scale then latents ++ latents else latents

/-- Embedding of the classifier-free-guidance combination (lines 245-249):
when `guidance_scale > 1.0` the doubled prediction batch is chunked into its
text (first) and unconditional (second) halves — `_encode_prompt`
concatenates `[cond, uncond]`, line 188 — and combined by
`torch.lerp(uncond, text, guidance_scale)`; otherwise the prediction is left
untouched.  `n` is the undoubled batch size. -/
def wuerstchenGuidedPrediction (guidance_scale : ℚ) (predicted : BatchTensor) (n : ℕ) :
    BatchTensor :=
  if 1 < guidance_scale then
    torchLerp (predicted.drop n) (predicted.take n) guidance_scale
  else predicted

/-- One iteration of the Wuerstchen prior denoising loop (lines 236-256):
run the prior on the (possibly doubled) input, apply the guidance
combination, and hand the result to the scheduler step together with the
current latents. -/
def wuerstchenDenoiseStep (guidance_scale : ℚ)
    (prior : BatchTensor → BatchTensor)
    (schedulerStep : BatchTensor → BatchTensor → BatchTensor)
    (latents : BatchTensor) : BatchTensor :=
  let predicted := prior (wuerstchenPriorModelInput guidance_scale latents)
  let predicted := wuerstchenGuidedPrediction guidance_scale predicted latents.length
  schedulerStep predicted latents

/-- One row of the lerp at weight 1 returns the second operand. -/
theorem lerp_one_right (a b : List ℚ) (h : a.length = b.length) :
    List.zipWith (fun s e => s + (1 : ℚ) * (e - s)) a b = b := by
  induction a generalizing b with
  | nil =>
    cases b with
    | nil => rfl
    | cons x xs => simp at h
  | cons x xs ih =>
    cases b with
    | nil => simp at h
    | cons y ys =>
      rw [List.zipWith_cons_cons, ih ys (by simpa using h)]
      congr 1
      ring

/-- torch.lerp at weight 1 returns the end tensor when the shapes agree. -/
theorem torchLerp_one (u c : BatchTensor) (hlen : u.length = c.length)
    (hrow : ∀ i, (u.getD i []).length = (c.getD i []).length) :
    torchLerp u c 1 = c := by
  induction u generalizing c with
  | nil =>
    cases c with
    | nil => rfl
    | cons y ys => simp at hlen
  | cons x xs ih =>
    cases c with
    | nil => simp at hlen
    | cons y ys =>
      show List.zipWith _ (x :: xs) (y :: ys) = y :: ys
      rw [List.zipWith_cons_cons]
      congr 1
      · exact lerp_one_right x y (by have h0 := hrow 0; simpa using h0)
      · exact ih ys (by simpa using hlen)
          (fun i => by have hs := hrow (i + 1); simpa using hs)

/-- C8: the classifier-free-guidance interpolation equals
`uncond + guidance_scale * (cond - uncond)` entrywise, and at
`guidance_scale = 1.0` it returns the conditional prediction exactly. -/
theorem guidance_lerp_formula (uncond cond : BatchTensor) (w : ℚ)
    (hlen : uncond.length = cond.length)
    (hrow : ∀ i, (uncond.getD i []).length = (cond.getD i []).length) :
    (∀ i j, ((torchLerp uncond cond w).getD i []).getD j 0
        = (uncond.getD i []).getD j 0
          + w * ((cond.getD i []).getD j 0 - (uncond.getD i []).getD j 0)) ∧
    torchLerp uncond cond 1 = cond := by
  constructor
  · intro i j
    by_cases hi : i < uncond.length
    · show ((List.zipWith _ uncond cond).getD i []).getD j 0 = _
      rw [getD_zipWith_of_lt _ _ _ i [] [] [] hi (hlen ▸ hi)]
      by_cases hj : j < (uncond.getD i []).length
      · rw [getD_zipWith_of_lt _ _ _ j 0 0 0 hj (hrow i ▸ hj)]
      · have hr := hrow i
        rw [List.getD_eq_default _ _ (by rw [List.length_zipWith]; omega),
          List.getD_eq_default _ _ (by omega),
          List.getD_eq_default _ _ (by omega : (cond.getD i []).length ≤ j)]
        ring
    · have h₁ : uncond.getD i [] = [] := List.getD_eq_default _ _ (by omega)
      have h₂ : cond.getD i [] = [] := List.getD_eq_default _ _ (by omega)
      have h₃ : (torchLerp uncond cond w).getD i [] = [] := by
        apply List.getD_eq_default
        simp only [torchLerp, List.length_zipWith]
        omega
      rw [h₁, h₂, h₃]
      simp
  · exact torchLerp_one uncond cond hlen hrow

/-- Witness for `guidance_lerp_formula` on concrete one-row tensors. -/
theorem guidance_lerp_formula_witness :
    (∀ i j, ((torchLerp [[(1 : ℚ), 2]] [[(3 : ℚ), 5]] 7).getD i []).getD j 0
        = (([[(1 : ℚ), 2]] : BatchTensor).getD i []).getD j 0
          + 7 * ((([[(3 : ℚ), 5]] : BatchTensor).getD i []).getD j 0
            - (([[(1 : ℚ), 2]] : BatchTensor).getD i []).getD j 0)) ∧
    torchLerp [[(1 : ℚ), 2]] [[(3 : ℚ), 5]] 1 = [[(3 : ℚ), 5]] := by
  constructor
  · exact (guidance_lerp_formula [[(1 : ℚ), 2]] [[(3 : ℚ), 5]] 7 rfl
      (fun i => by cases i <;> simp [List.getD_cons_succ])).1
  · exact (guidance_lerp_formula [[(1 : ℚ), 2]] [[(3 : ℚ), 5]] 1 rfl
      (fun i => by cases i <;> simp [List.getD_cons_succ])).2

/-- C10: classifier-free-guidance interpolation in the Wuerstchen prior loop
is performed iff `guidance_scale > 1.0`.  For every `guidance_scale ≤ 1.0`
(including exactly `1.0`) the batch is never doubled, no lerp is performed,
and the prior's single prediction reaches the scheduler step unchanged; for
`guidance_scale > 1.0` the input batch is doubled and the passed-on
prediction is the lerp of the unconditional half toward the text half. -/
theorem guidance_applied_iff (gs : ℚ) (latents predicted : BatchTensor)
    (prior : BatchTensor → BatchTensor)
    (schedulerStep : BatchTensor → BatchTensor → BatchTensor) :
    (gs ≤ 1 →
      wuerstchenPriorModelInput gs latents = latents ∧
      wuerstchenGuidedPrediction gs predicted latents.length = predicted ∧
      wuerstchenDenoiseStep gs prior schedulerStep latents
        = schedulerStep (prior latents) latents) ∧
    (1 < gs →
      wuerstchenPriorModelInput gs latents = latents ++ latents ∧
      wuerstchenGuidedPrediction gs predicted latents.length
        = torchLerp (predicted.drop latents.length) (predicted.take latents.length) gs) := by
  constructor
  · intro h
    have h' : ¬ (1 < gs) := not_lt.mpr h
    refine ⟨?_, ?_, ?_⟩ <;>
      simp [wuerstchenPriorModelInput, wuerstchenGuidedPrediction, wuerstchenDenoiseStep, h']
  · intro h
    exact ⟨by simp [wuerstchenPriorModelInput, h],
      by simp [wuerstchenGuidedPrediction, h]⟩

/-- Witness for `guidance_applied_iff` at `guidance_scale = 1` (no guidance,
prediction passed through) and `guidance_scale = 2` (doubled batch, lerp of
the halves). -/
theorem guidance_applied_iff_witness :
    (wuerstchenPriorModelInput 1 [[(5 : ℚ)]] = [[(5 : ℚ)]] ∧
     wuerstchenGuidedPrediction 1 [[(7 : ℚ)]] 1 = [[(7 : ℚ)]] ∧
     wuerstchenDenoiseStep 1 (fun m => m) (fun p _ => p) [[(5 : ℚ)]] = [[(5 : ℚ)]]) ∧
    (wuerstchenPriorModelInput 2 [[(5 : ℚ)]] = [[(5 : ℚ)], [(5 : ℚ)]] ∧
     wuerstchenGuidedPrediction 2 [[(7 : ℚ)], [(9 : ℚ)]] 1
       = torchLerp [[(9 : ℚ)]] [[(7 : ℚ)]] 2) := by
  have h₁ := (guidance_applied_iff 1 [[(5 : ℚ)]] [[(7 : ℚ)]] (fun m => m)
    (fun p _ => p)).1 (by norm_num)
  have h₂ := (guidance_applied_iff 2 [[(5 : ℚ)]] [[(7 : ℚ)], [(9 : ℚ)]] (fun m => m)
    (fun p _ => p)).2 (by norm_num)
  exact ⟨⟨h₁.1, h₁.2.1, h₁.2.2⟩, ⟨h₂.1, h₂.2⟩⟩
